import Mathlib

/-!
Verification of the rotating-file writer of the utility repository
(package rotate, file rotate.go: RotatingFile and its helpers).

The Go code is embedded shallowly:

* The filesystem is modelled with an explicit inode layer (a directory
  mapping paths to inode ids plus an inode store mapping ids to file
  contents).  The inode layer is needed because the code keeps an open
  file handle across a rename: on POSIX a handle follows the inode, not
  the path, and the behaviour of the first write after an on-open
  rotation depends on exactly that.
* Every fallible OS call is driven by an explicit fault record, so each
  error branch of the Go code is reachable in the model.
* The asynchronous maintenance goroutine started by tidyBackups is
  linearised: the model runs the cleanup-and-compress pass at the point
  the goroutine is spawned and clears the in-flight flag when the pass
  is done.  The spin-wait in Close is modelled accordingly: a Close that
  returns nil has observed the flag become false.
* Durations and timestamps are integers (nanoseconds, as Go's
  time.Duration); machine words never overflow in the scenarios of
  interest, so Int is used directly.
* Deviating field name: the Go option field BackupPrefix is called
  backupPref here; the Go struct Option is called ROption (Option is
  taken by Lean).
-/

set_option maxRecDepth 4096

namespace RotateSpec

/-! ## Filesystem model -/

/-- File contents: a list of bytes. -/
abbrev Content := List Nat

/-- An inode: file contents plus a modification time. -/
structure Inode where
  content : Content
  modTime : Int
  deriving Repr, DecidableEq

/-- A filesystem: a directory (path to inode id), an inode store
(id to inode), and the next fresh inode id. -/
structure FS where
  dir : List (String × Nat)
  store : List (Nat × Inode)
  next : Nat
  deriving Repr, DecidableEq

/-- Look up the inode id bound to a path. -/
def FS.lookupPath (fs : FS) (p : String) : Option Nat :=
  (fs.dir.find? (fun e => e.1 == p)).map (fun e => e.2)

/-- Look up an inode by id. -/
def FS.getInode (fs : FS) (i : Nat) : Option Inode :=
  (fs.store.find? (fun e => e.1 == i)).map (fun e => e.2)

/-- Replace the inode stored under an id. -/
def FS.setInode (fs : FS) (i : Nat) (ino : Inode) : FS :=
  { fs with store := fs.store.map (fun e => if e.1 == i then (i, ino) else e) }

/-- Create a fresh inode bound to a path. -/
def FS.addEntry (fs : FS) (p : String) (ino : Inode) : FS :=
  { dir := (p, fs.next) :: fs.dir
    store := (fs.next, ino) :: fs.store
    next := fs.next + 1 }

/-- Remove the directory entry of a path (os.Remove); the inode itself
survives while handles may still reference it. -/
def FS.removePath (fs : FS) (p : String) : FS :=
  { fs with dir := fs.dir.filter (fun e => e.1 != p) }

/-- Rename a path (os.Rename): the inode keeps its identity, only the
directory binding moves; an existing target is overwritten.  Returns
none when the source does not exist (os.ErrNotExist). -/
def FS.rename (fs : FS) (src dst : String) : Option FS :=
  match fs.lookupPath src with
  | none => none
  | some i =>
      some { fs with dir := (dst, i) :: fs.dir.filter (fun e => e.1 != src && e.1 != dst) }

/-- Open a path for appending, creating it when missing
(os.OpenFile with O_WRONLY, O_APPEND, O_CREATE).  Returns the inode id the
resulting handle refers to. -/
def FS.openAppend (fs : FS) (p : String) (now : Int) : Nat × FS :=
  match fs.lookupPath p with
  | some i => (i, fs)
  | none => (fs.next, fs.addEntry p { content := [], modTime := now })

/-- Open a path truncating it, creating it when missing
(os.OpenFile with O_CREATE, O_WRONLY, O_TRUNC). -/
def FS.openTrunc (fs : FS) (p : String) (now : Int) : Nat × FS :=
  match fs.lookupPath p with
  | some i => (i, fs.setInode i { content := [], modTime := now })
  | none => (fs.next, fs.addEntry p { content := [], modTime := now })

/-- Append bytes to an inode through an open handle (File.Write on a
handle: the bytes go to the inode the handle refers to, whatever the
directory now says about paths). -/
def FS.appendInode (fs : FS) (i : Nat) (b : Content) : FS :=
  match fs.getInode i with
  | none => fs
  | some ino => fs.setInode i { ino with content := ino.content ++ b }

/-- Size of the file behind an inode id (FileInfo.Size). -/
def FS.sizeOf (fs : FS) (i : Nat) : Nat :=
  ((fs.getInode i).map (fun ino => ino.content.length)).getD 0

/-- Contents of the file at a path, if any. -/
def FS.readPath (fs : FS) (p : String) : Option Content :=
  match fs.lookupPath p with
  | none => none
  | some i => (fs.getInode i).map (fun ino => ino.content)

/-- Length of a string in characters (String.length, written through
the character list so that the kernel can evaluate it). -/
def strLen (s : String) : Nat :=
  s.data.length

/-- Drop the first n characters of a string (String.drop, through the
character list). -/
def strDrop (s : String) (n : Nat) : String :=
  String.mk (s.data.drop n)

/-- strings.HasSuffix. -/
def strHasSuffix (s suffix : String) : Bool :=
  suffix.data.isSuffixOf s.data

/-- strings.HasPrefix. -/
def strHasPref (s pre : String) : Bool :=
  pre.data.isPrefixOf s.data

/-- Names (relative to the folder) of the directory entries under a
folder (os.ReadDir); the folder string carries its trailing separator,
as produced by filepath.Split. -/
def FS.readDirNames (fs : FS) (folder : String) : List String :=
  (fs.dir.filter (fun e => strHasPref e.1 folder)).map
    (fun e => strDrop e.1 (strLen folder))

/-! ## The rotate package: constants, options, state -/

/-- lib.Day in nanoseconds (Go time.Duration). -/
def Day : Int := 24 * 60 * 60 * 1000000000

/-- lib.Month: 30 days. -/
def Month : Int := 30 * Day

/-- lib.GB: 1 shifted left 30. -/
def GB : Int := 1073741824

/-- The compressExtension constant of the package. -/
def compressExtension : String := ".gz"

/-- The Option struct of the rotate package (named ROption because Lean
reserves Option); field backupPref is the Go field BackupPrefix. -/
structure ROption where
  MaxSize : Int
  Duration : Int
  MaxAge : Int
  ModePerm : Nat
  Backups : Int
  CompressLevel : Int
  backupPref : String
  deriving Repr, DecidableEq

/-- The package-level defaultOption value. -/
def defaultOption : ROption :=
  { MaxSize := GB
    Duration := Day
    MaxAge := Month
    ModePerm := 420
    Backups := 30
    CompressLevel := 6
    backupPref := "rotating-" }

/-- Errors returned by the modelled OS and package operations.  The Go
code wraps messages with errors.Newf; the claims only depend on
non-nilness and on which operation failed, so one constructor per
failing operation suffices. -/
inductive Err where
  | openErr
  | statErr
  | writeErr
  | closeErr
  | renameErr
  | createErr
  | cStatErr
  | cDstErr
  | cGzipErr
  | cCopyErr
  deriving Repr, DecidableEq

/-- Fault injection for the overridable OS calls of the package
(osOpenFile, osRename, ...).  A false flag means the call succeeds.
writeResult none means the handle write succeeds in full; some k means
the write stops after k bytes and reports an error (a short write). -/
structure Faults where
  openFails : Bool
  statFails : Bool
  closeFails : Bool
  renameFails : Bool
  createFails : Bool
  writeResult : Option Nat
  cOpenFails : Bool
  cStatFails : Bool
  cDstFails : Bool
  cGzipFails : Bool
  cCopyFails : Bool
  deriving Repr, DecidableEq

/-- All OS calls succeed. -/
def noFaults : Faults :=
  { openFails := false
    statFails := false
    closeFails := false
    renameFails := false
    createFails := false
    writeResult := none
    cOpenFails := false
    cStatFails := false
    cDstFails := false
    cGzipFails := false
    cCopyFails := false }

/-- The backupFile struct: absolute path and modification time of a
backup file found in the folder. -/
structure BackupF where
  modTime : Int
  file : String
  deriving Repr, DecidableEq

/-- The mutable fields of the RotatingFile struct.  The writer field
holds the inode id the open handle refers to (none when closed); the
cleaning field is the atomic single-flight flag of the maintenance
goroutine.  The mutex and the timer object are not represented: the
model is sequential, and time-based rotation is outside the claims. -/
structure RotatingFile where
  writer : Option Nat
  option : ROption
  used : Int
  file : String
  folder : String
  filename : String
  rotatingTime : Int
  cleaning : Bool
  deriving Repr, DecidableEq

/-- A world: the writer state, the disk, and a ghost trace of the
(src, dst) pairs passed to osRename, used to observe whether the
backup-rename step of a rotation ran. -/
structure World where
  rf : RotatingFile
  fs : FS
  renames : List (String × String)
  deriving Repr, DecidableEq

/-- Per-call context: the current time, the random salt produced by
lib.RandString for this rotation, and the injected faults. -/
structure Ctx where
  now : Int
  salt : String
  faults : Faults
  deriving Repr, DecidableEq

/-! ## Helpers: deletion and compression -/

/-- deleteFile: os.Remove with a failure only warned about; modelled as
always succeeding. -/
def deleteFile (fs : FS) (file : String) : FS :=
  fs.removePath file

/-- deleteBackupFiles: delete every file of the list. -/
def deleteBackupFiles (fs : FS) (files : List BackupF) : FS :=
  files.foldl (fun acc b => deleteFile acc b.file) fs

/-- Stand-in for the gzip byte stream produced at a compression level.
The claims below depend only on which files exist and which are
deleted, never on the encoding itself. -/
def gzipEncode (level : Int) (c : Content) : Content :=
  level.toNat :: c

/-- compressFile: gzip-compress src into dst at the given level, then
delete src; on an open failure of src it warns and returns nil without
touching anything; on any later failure it returns an error and the
deferred deletion of src does not run. -/
def compressFile (fs : FS) (fa : Faults) (src dst : String) (level : Int)
    (now : Int) : Option Err × FS :=
  match fs.lookupPath src with
  | none => (none, fs)
  | some i =>
      if fa.cOpenFails then (none, fs)
      else if fa.cStatFails then (some Err.cStatErr, fs)
      else if fa.cDstFails then (some Err.cDstErr, fs)
      else
        let dstOpened := fs.openTrunc dst now
        let fs1 := dstOpened.2
        if fa.cGzipFails then (some Err.cGzipErr, fs1)
        else if fa.cCopyFails then (some Err.cCopyErr, fs1)
        else
          let src0 := ((fs.getInode i).map (fun ino => ino.content)).getD []
          let fs2 := fs1.setInode dstOpened.1
            { content := gzipEncode level src0, modTime := now }
          (none, deleteFile fs2 src)

/-! ## RotatingFile methods -/

/-- nextBackupFilename: prefix, an 8 character random salt, a hyphen,
and the original filename. -/
def RotatingFile.nextBackupFilename (r : RotatingFile) (salt : String) : String :=
  r.option.backupPref ++ salt ++ "-" ++ r.filename

/-- The private close method: close the writer when one is open (an
error there is returned with nothing updated), then clear the writer,
zero the used counter and stop the timer. -/
def RotatingFile.closeWriter (w : World) (fa : Faults) : Option Err × World :=
  match w.rf.writer with
  | some _ =>
      if fa.closeFails then (some Err.closeErr, w)
      else (none, { w with rf := { w.rf with writer := none, used := 0 } })
  | none => (none, { w with rf := { w.rf with writer := none, used := 0 } })

/-- slices.IndexFunc, with none for the Go result -1. -/
def indexFunc (p : BackupF → Bool) : List BackupF → Option Nat
  | [] => none
  | b :: bs => if p b then some 0 else (indexFunc p bs).map (fun k => k + 1)

/-- Insert into a list ascending by modification time (the comparator
of sort.Slice in sortBackups is modTime Before). -/
def insertBk (b : BackupF) : List BackupF → List BackupF
  | [] => [b]
  | c :: cs => if b.modTime < c.modTime then b :: c :: cs else c :: insertBk b cs

/-- Sort backups ascending by modification time. -/
def sortBks : List BackupF → List BackupF
  | [] => []
  | b :: bs => insertBk b (sortBks bs)

/-- The filter of sortBackups: a directory entry is a backup of this
writer when its name carries the configured backup name start and ends
with the tracked filename, plain or with the compression extension. -/
def isBackupName (r : RotatingFile) (name : String) : Bool :=
  strHasPref name r.option.backupPref &&
    (strHasSuffix name r.filename ||
      strHasSuffix name (r.filename ++ compressExtension))

/-- sortBackups: scan the folder, keep matching entries together with
their modification times, and sort ascending by modification time.
The readDir and Info error branches of the Go code are not modelled
(the model filesystem always answers). -/
def RotatingFile.sortBackups (w : World) : List BackupF :=
  let names := (w.fs.readDirNames w.rf.folder).filter (isBackupName w.rf)
  let backups := names.filterMap (fun name =>
    match w.fs.readPath (w.rf.folder ++ name) with
    | none => none
    | some _ =>
        match w.fs.lookupPath (w.rf.folder ++ name) with
        | none => none
        | some i =>
            (w.fs.getInode i).map (fun ino =>
              { modTime := ino.modTime, file := w.rf.folder ++ name }))
  sortBks backups

/-- cleanBackups: compute, over the sorted backups, the cut index from
the Backups rule and the MaxAge rule (the larger wins), delete the
files before the cut, and return the survivors. -/
def RotatingFile.cleanBackups (w : World) (now : Int) : List BackupF × World :=
  let backups := RotatingFile.sortBackups w
  let length := backups.length
  if length == 0 then ([], w)
  else
    let d0 : Nat :=
      if w.rf.option.Backups > 0 then
        (if (length : Int) - w.rf.option.Backups > 0 then
          ((length : Int) - w.rf.option.Backups).toNat else 0)
      else 0
    let deleteIndex : Nat :=
      if w.rf.option.MaxAge > 0 then
        let expired := now - w.rf.option.MaxAge
        match indexFunc (fun b => decide (expired ≤ b.modTime)) backups with
        | none => length
        | some index => max index d0
      else d0
    (backups.drop deleteIndex,
      { w with fs := deleteBackupFiles w.fs (backups.take deleteIndex) })

/-- The compression loop of the maintenance pass: each surviving
backup not yet carrying the compression suffix is stream-compressed and
its uncompressed original deleted (by compressFile). -/
def compressLoop (c : Ctx) (bks : List BackupF) (w : World) : World :=
  bks.foldl (fun acc bk =>
    if strHasSuffix bk.file compressExtension then acc
    else
      { acc with fs := (compressFile acc.fs c.faults bk.file
          (bk.file ++ compressExtension) acc.rf.option.CompressLevel c.now).2 })
    w

/-- tidyBackups: the single-flight compare-and-swap on the cleaning
flag, then the asynchronous pass, linearised at the spawn point: clean
the backups, compress the surviving uncompressed ones when the level is
positive, and clear the flag. -/
def RotatingFile.tidyBackups (w : World) (c : Ctx) : World :=
  if w.rf.cleaning then w
  else
    let w1 : World := { w with rf := { w.rf with cleaning := true } }
    let cleaned := RotatingFile.cleanBackups w1 c.now
    let w2 := cleaned.2
    let w3 :=
      if w2.rf.option.CompressLevel ≤ 0 then w2
      else compressLoop c cleaned.1 w2
    { w3 with rf := { w3.rf with cleaning := false } }

/-- The osRename step of a rotation: when the source is missing the
error is os.ErrNotExist and is only warned about (the world is kept);
otherwise the binding moves. -/
def renameOrWarn (w : World) (src dst : String) : World :=
  match w.fs.rename src dst with
  | none => w
  | some fs1 => { w with fs := fs1 }

/-- rotate: close the current handle, rename the active file to a fresh
backup name and trigger maintenance when both Backups and MaxAge are
nonzero, truncate-create the active file anew, and reset the duration
clock and the used counter as configured. -/
def RotatingFile.rotate (w : World) (c : Ctx) : Option Err × World :=
  match RotatingFile.closeWriter w c.faults with
  | (some e, w0) => (some e, w0)
  | (none, w1) =>
      let afterBackup : Option Err × World :=
        if w1.rf.option.Backups ≠ 0 ∧ w1.rf.option.MaxAge ≠ 0 then
          let backupName := w1.rf.folder ++ RotatingFile.nextBackupFilename w1.rf c.salt
          let w2 : World := { w1 with renames := (w1.rf.file, backupName) :: w1.renames }
          if c.faults.renameFails then (some Err.renameErr, w2)
          else (none, RotatingFile.tidyBackups (renameOrWarn w2 w2.rf.file backupName) c)
        else (none, w1)
      match afterBackup with
      | (some e, w4) => (some e, w4)
      | (none, w4) =>
          if c.faults.createFails then (some Err.createErr, w4)
          else
            let opened := w4.fs.openTrunc w4.rf.file c.now
            let w5 : World :=
              { w4 with fs := opened.2, rf := { w4.rf with writer := some opened.1 } }
            let w6 : World :=
              if w5.rf.option.Duration > 0 then
                { w5 with rf := { w5.rf with rotatingTime := c.now } }
              else w5
            let w7 : World :=
              if w6.rf.option.MaxSize > 0 then
                { w6 with rf := { w6.rf with used := 0 } }
              else w6
            (none, w7)

/-- Store a handle in the writer field (the assignment r.writer =
writer). -/
def setWriter (w : World) (ino : Nat) : World :=
  { w with rf := { w.rf with writer := some ino } }

/-- The tail of openWriter after an on-open rotation: propagate a
rotation error, else store the handle opened at the top of openWriter
in the writer field. -/
def openWriterFinish (r : Option Err × World) (ino : Nat) : Option Err × World :=
  match r with
  | (some e, w3) => (some e, w3)
  | (none, w3) => (none, setWriter w3 ino)

/-- openWriter: open the active file for appending (creating folder and
file as needed), and under a size policy read its size into used and
rotate right away when that size already exceeds the threshold.  The
final assignment of the writer field stores the handle opened at the
top of the function, exactly as the Go code does, even when a rotation
has just installed a handle to the freshly created file. -/
def RotatingFile.openWriter (w : World) (c : Ctx) : Option Err × World :=
  if c.faults.openFails then (some Err.openErr, w)
  else
    let opened := w.fs.openAppend w.rf.file c.now
    let ino := opened.1
    let w1 : World := { w with fs := opened.2 }
    if w1.rf.option.MaxSize > 0 then
      if c.faults.statFails then (some Err.statErr, w1)
      else
        let size : Int := (w1.fs.sizeOf ino : Int)
        let w2 : World := { w1 with rf := { w1.rf with used := size } }
        if size > w2.rf.option.MaxSize then
          openWriterFinish (RotatingFile.rotate w2 c) ino
        else (none, setWriter w2 ino)
    else (none, setWriter w1 ino)

/-- The tail of Write after a size-triggered rotation: a failed
rotation makes Write return 0 with the rotation error, a successful one
returns the count written. -/
def writeFinish (r : Option Err × World) (n : Nat) : (Nat × Option Err) × World :=
  match r with
  | (some e, w4) => ((0, some e), w4)
  | (none, w4) => ((n, none), w4)

/-- The body of Write once a writer is known to be open: write the
bytes through the handle, and under a size policy accumulate used and
rotate once used exceeds MaxSize. -/
def RotatingFile.writeBody (w1 : World) (c : Ctx) (b : Content) :
    (Nat × Option Err) × World :=
  let ino := w1.rf.writer.getD 0
  match c.faults.writeResult with
  | some k =>
      let n := min k b.length
      ((n, some Err.writeErr), { w1 with fs := w1.fs.appendInode ino (b.take n) })
  | none =>
      let n := b.length
      let w2 : World := { w1 with fs := w1.fs.appendInode ino b }
      if w2.rf.option.MaxSize > 0 then
        let used1 := w2.rf.used + (n : Int)
        let w3 : World := { w2 with rf := { w2.rf with used := used1 } }
        if used1 > w3.rf.option.MaxSize then
          writeFinish (RotatingFile.rotate w3 c) n
        else ((n, none), w3)
      else ((n, none), w2)

/-- Write: ensure a writer is open (an openWriter error is returned
with count 0), then run the write body. -/
def RotatingFile.Write (w : World) (c : Ctx) (b : Content) :
    (Nat × Option Err) × World :=
  match w.rf.writer with
  | none =>
      match RotatingFile.openWriter w c with
      | (some e, w1) => ((0, some e), w1)
      | (none, w1) => RotatingFile.writeBody w1 c b
  | some _ => RotatingFile.writeBody w c b

/-- lib.ToBytes: the byte representation of a string. -/
def toBytes (s : String) : Content :=
  s.toUTF8.toList.map (fun b => b.toNat)

/-- WriteString: Write applied to the byte representation. -/
def RotatingFile.WriteString (w : World) (c : Ctx) (s : String) :
    (Nat × Option Err) × World :=
  RotatingFile.Write w c (toBytes s)

/-- The public Close: run the private close (an error there is returned
at once, without waiting), then spin until the cleaning flag is clear;
the model returns the state in which the wait has observed the flag
become false. -/
def RotatingFile.Close (w : World) (fa : Faults) : Option Err × World :=
  match RotatingFile.closeWriter w fa with
  | (some e, w1) => (some e, w1)
  | (none, w1) => (none, { w1 with rf := { w1.rf with cleaning := false } })

/-! ## Construction: SetOption values and NewRotatingFile -/

/-- A SetOption mutates the option record and may return an error. -/
abbrev SetOpt := ROption → Option Err × ROption

/-- The error values a SetOption can produce. -/
inductive OptErr where
  | modePermission
  | invalidBackupName
  | invalidCompression
  | invalidChar
  deriving Repr, DecidableEq

/-- WithMaxSize: warns for a small positive size, never errs. -/
def WithMaxSize (size : Int) : ROption → Option OptErr × ROption :=
  fun opt => (none, { opt with MaxSize := size })

/-- WithMaxAge: a negative age only draws a warning (not limited by max
age); the value is stored and no error is returned. -/
def WithMaxAge (age : Int) : ROption → Option OptErr × ROption :=
  fun opt => (none, { opt with MaxAge := age })

/-- WithBackups: a negative count only draws a warning; stored, no
error. -/
def WithBackups (backups : Int) : ROption → Option OptErr × ROption :=
  fun opt => (none, { opt with Backups := backups })

/-- WithBackupPrefix: errs on an empty or overlong value, or on a
character that is neither a letter nor a hyphen. -/
def WithBackupName (pre : String) : ROption → Option OptErr × ROption :=
  fun opt =>
    let length := strLen pre
    if length == 0 || length > 128 then (some OptErr.invalidBackupName, opt)
    else if pre.data.all (fun ch => ch.isAlpha || ch == '-') then
      (none, { opt with backupPref := pre })
    else (some OptErr.invalidChar, opt)

/-- WithModePerm: errs when the write permission bit 0o200 is absent. -/
def WithModePerm (perm : Nat) : ROption → Option OptErr × ROption :=
  fun opt =>
    if perm &&& 128 == 0 then (some OptErr.modePermission, opt)
    else (none, { opt with ModePerm := perm })

/-- WithCompressLevel: errs above level 9; nonpositive means no
compression and is accepted. -/
def WithCompressLevel (level : Int) : ROption → Option OptErr × ROption :=
  fun opt =>
    if level > 9 then (some OptErr.invalidCompression, opt)
    else (none, { opt with CompressLevel := level })

/-- WithDuration: warns for a short positive duration, never errs. -/
def WithDuration (duration : Int) : ROption → Option OptErr × ROption :=
  fun opt => (none, { opt with Duration := duration })

/-- errors.Join folded over two slots: non-nil when either is. -/
def joinErr : Option OptErr → Option OptErr → Option OptErr
  | none, e => e
  | some e, _ => some e

/-- filepath.Split: folder with its trailing separator, then the bare
filename. -/
def splitPath (p : String) : String × String :=
  match (p.data.reverse.findIdx? (fun ch => ch == '/')) with
  | none => ("", p)
  | some k =>
      let cut := p.data.length - k
      (String.mk (p.data.take cut), String.mk (p.data.drop cut))

/-- NewRotatingFile: resolve the path, clone the default option, apply
every SetOption collecting errors with errors.Join, and fail when any
option errored.  paths.Abs is modelled as the identity (the claims use
absolute inputs); the Duration daemon goroutine is not modelled. -/
def NewRotatingFile (file : String)
    (opts : List (ROption → Option OptErr × ROption)) :
    Except OptErr RotatingFile :=
  let split := splitPath file
  let folded := opts.foldl
    (fun acc opt =>
      let applied := opt acc.2
      (joinErr acc.1 applied.1, applied.2))
    ((none : Option OptErr), defaultOption)
  match folded.1 with
  | some e => Except.error e
  | none =>
      Except.ok
        { writer := none
          option := folded.2
          used := 0
          file := file
          folder := split.1
          filename := split.2
          rotatingTime := 0
          cleaning := false }

/-- The sortBackups matching predicate lifted to a full path: the path
lies in the folder and its name there matches the backup pattern. -/
def matchesBackup (r : RotatingFile) (p : String) : Bool :=
  strHasPref p r.folder && isBackupName r (strDrop p (strLen r.folder))

/-- The number of backup files of this writer currently on disk (the
entries a maintenance scan of the folder would match). -/
def countBackups (w : World) : Nat :=
  ((w.fs.readDirNames w.rf.folder).filter (isBackupName w.rf)).length

/-- The maintenance scan count over a raw directory listing: how many
entries a folder scan of this writer would match. -/
def scanCount (r : RotatingFile) (dir : List (String × Nat)) : Nat :=
  (((dir.filter (fun e => strHasPref e.1 r.folder)).map
    (fun e => strDrop e.1 (strLen r.folder))).filter (isBackupName r)).length

/-- Fold Write over a sequence of calls, each with its own context
(time, salt, faults) and payload. -/
def writeSeq (w : World) (l : List (Ctx × Content)) : World :=
  l.foldl (fun acc p => (RotatingFile.Write acc p.1 p.2).2) w

/-- The retention formula of the spec: the number of backups one
maintenance pass deletes, the larger of the count rule's K - C and the
age rule's number of backups strictly older than now - A. -/
def retentionCut (bs : List BackupF) (C A now : Int) : Nat :=
  (max ((bs.length : Int) - C)
    ((bs.countP (fun b => decide (b.modTime < now - A)) : Int))).toNat

/-! ## Concrete scenarios used by the claims -/

/-- Faults where only the handle close fails. -/
def closeFaults : Faults := { noFaults with closeFails := true }

/-- C1 configuration: size policy of 4 bytes, both retention values
nonzero, no compression and no time policy. -/
def c1opt : ROption :=
  { MaxSize := 4, Duration := 0, MaxAge := -1, ModePerm := 420,
    Backups := 5, CompressLevel := 0, backupPref := "rotating-" }

/-- C1 writer state: not yet opened. -/
def c1rf : RotatingFile :=
  { writer := none, option := c1opt, used := 0, file := "/d/app.log",
    folder := "/d/", filename := "app.log", rotatingTime := 0, cleaning := false }

/-- C1 disk: a leftover active file of 5 bytes, above the threshold 4. -/
def c1fs : FS :=
  { dir := [("/d/app.log", 0)],
    store := [(0, { content := [1, 2, 3, 4, 5], modTime := 0 })], next := 1 }

/-- C1 world. -/
def c1w : World := { rf := c1rf, fs := c1fs, renames := [] }

/-- C1 call context: fault-free, with a fixed salt. -/
def c1ctx : Ctx := { now := 10, salt := "AAAAAAAA", faults := noFaults }

/-- C2 scenario: writer open on the active file, 3 of 4 bytes used. -/
def c2rf : RotatingFile :=
  { writer := some 0,
    option := { c1opt with Backups := -1 },
    used := 3, file := "/d/app.log", folder := "/d/", filename := "app.log",
    rotatingTime := 0, cleaning := false }

/-- C2 disk: the active file holds the 3 bytes already written. -/
def c2fs : FS :=
  { dir := [("/d/app.log", 0)],
    store := [(0, { content := [1, 2, 3], modTime := 0 })], next := 1 }

/-- C2 world. -/
def c2w : World := { rf := c2rf, fs := c2fs, renames := [] }

/-- C2 call context: the close inside the triggered rotation fails. -/
def c2ctx : Ctx := { now := 10, salt := "BBBBBBBB", faults := closeFaults }

/-- C2 partial-write context: the handle write stops after 1 byte. -/
def c2pctx : Ctx :=
  { now := 10, salt := "BBBBBBBB", faults := { noFaults with writeResult := some 1 } }

/-- C4 configuration: Backups 0 (keep none), age rule disabled, size
threshold 1 so that multi-byte writes force rotations. -/
def c4opt : ROption :=
  { MaxSize := 1, Duration := 0, MaxAge := -1, ModePerm := 420,
    Backups := 0, CompressLevel := 0, backupPref := "rotating-" }

/-- C4 writer state. -/
def c4rf : RotatingFile :=
  { writer := none, option := c4opt, used := 0, file := "/d/app.log",
    folder := "/d/", filename := "app.log", rotatingTime := 0, cleaning := false }

/-- C4 disk: only the active file, no backups. -/
def c4fs : FS :=
  { dir := [("/d/app.log", 0)], store := [(0, { content := [9, 9], modTime := 0 })], next := 1 }

/-- C4 world. -/
def c4w : World := { rf := c4rf, fs := c4fs, renames := [] }

/-- C5 call context: fault-free. -/
def c5ctx : Ctx := { now := 10, salt := "CCCCCCCC", faults := noFaults }

/-- C6 scenario: writer open while a maintenance pass is in flight. -/
def c6w : World :=
  { rf := { c2rf with cleaning := true }, fs := c2fs, renames := [] }

/-- C7 scenario disk: one uncompressed backup file. -/
def c7fs : FS :=
  { dir := [("/d/rotating-a-app.log", 0)],
    store := [(0, { content := [1, 2], modTime := 0 })], next := 1 }

/-- C3 configuration: count rule keeps 2, age rule MaxAge 5. -/
def c3opt : ROption :=
  { MaxSize := 4, Duration := 0, MaxAge := 5, ModePerm := 420,
    Backups := 2, CompressLevel := 0, backupPref := "rotating-" }

/-- C3 writer state. -/
def c3rf : RotatingFile :=
  { writer := none, option := c3opt, used := 0, file := "/d/app.log",
    folder := "/d/", filename := "app.log", rotatingTime := 0, cleaning := false }

/-- C3 disk: four backups with ascending distinct times 1, 2, 3 and
96 (at now = 100 the age rule expires times before 95). -/
def c3fs : FS :=
  { dir := [("/d/rotating-a-app.log", 0), ("/d/rotating-b-app.log", 1), ("/d/rotating-c-app.log", 2), ("/d/rotating-d-app.log", 3)]
    store := [(0, { content := [], modTime := 1 }), (1, { content := [], modTime := 2 }), (2, { content := [], modTime := 3 }), (3, { content := [], modTime := 96 })]
    next := 4 }

/-- C3 world. -/
def c3w : World := { rf := c3rf, fs := c3fs, renames := [] }

/-- Faults where only the gzip writer creation fails. -/
def gzFaults : Faults := { noFaults with cGzipFails := true }

/-- C10 scenario: a writer already closed (writer nil). -/
def c10w : World :=
  { rf := { c2rf with writer := none }, fs := c2fs, renames := [] }

/-! ## Association-list lemmas for the filesystem model -/

/-- Finding a key in a list filtered to exclude exactly that key yields
nothing. -/
theorem find_filter_eq_none {α β : Type} [BEq α] [LawfulBEq α]
    (l : List (α × β)) (p : α) :
    (l.filter (fun e => e.1 != p)).find? (fun e => e.1 == p) = none := by
  induction l with
  | nil => rfl
  | cons a tl ih =>
      by_cases h : a.1 = p
      · simp only [List.filter_cons, h, bne_self_eq_false, cond_false]
        exact ih
      · have hne : (a.1 != p) = true := bne_iff_ne.mpr h
        have hq : (a.1 == p) = false := beq_eq_false_iff_ne.mpr h
        simp only [List.filter_cons, hne, if_true]
        rw [List.find?_cons_of_neg _ (by simp [hq])]
        exact ih

/-- Filtering out one key does not change the lookup of another key. -/
theorem find_filter_ne {α β : Type} [BEq α] [LawfulBEq α]
    (l : List (α × β)) (p q : α) (hq : q ≠ p) :
    (l.filter (fun e => e.1 != p)).find? (fun e => e.1 == q) =
      l.find? (fun e => e.1 == q) := by
  induction l with
  | nil => rfl
  | cons a tl ih =>
      by_cases h : a.1 = p
      · have haq : (a.1 == q) = false := by
          apply beq_eq_false_iff_ne.mpr
          rw [h]
          exact Ne.symm hq
        simp only [List.filter_cons, h, bne_self_eq_false,
          Bool.false_eq_true, if_false]
        rw [List.find?_cons_of_neg _ (by simp [haq])]
        exact ih
      · have hne : (a.1 != p) = true := bne_iff_ne.mpr h
        simp only [List.filter_cons, hne, if_true]
        by_cases h2 : a.1 = q
        · rw [List.find?_cons_of_pos _ (by simp [h2]),
            List.find?_cons_of_pos _ (by simp [h2])]
        · have haq : (a.1 == q) = false := beq_eq_false_iff_ne.mpr h2
          rw [List.find?_cons_of_neg _ (by simp [haq]),
            List.find?_cons_of_neg _ (by simp [haq])]
          exact ih

/-- Updating the value stored under a key, seen through a lookup of the
same key. -/
theorem find_map_update_self {α β : Type} [BEq α] [LawfulBEq α]
    (l : List (α × β)) (i : α) (v : β) :
    (l.map (fun e => if e.1 == i then (i, v) else e)).find?
        (fun e => e.1 == i) =
      (l.find? (fun e => e.1 == i)).map (fun _ => (i, v)) := by
  induction l with
  | nil => rfl
  | cons a tl ih =>
      by_cases h : a.1 = i
      · have hai : (a.1 == i) = true := beq_iff_eq.mpr h
        simp only [List.map_cons, hai, if_true]
        rw [List.find?_cons_of_pos _ (by simp),
          List.find?_cons_of_pos _ (by simp [hai])]
        rfl
      · have hai : (a.1 == i) = false := beq_eq_false_iff_ne.mpr h
        simp only [List.map_cons, hai, Bool.false_eq_true, if_false]
        rw [List.find?_cons_of_neg _ (by simp [hai]),
          List.find?_cons_of_neg _ (by simp [hai])]
        exact ih

/-- Updating the value stored under a key does not change the lookup of
another key. -/
theorem find_map_update_ne {α β : Type} [BEq α] [LawfulBEq α]
    (l : List (α × β)) (i j : α) (v : β) (hj : j ≠ i) :
    (l.map (fun e => if e.1 == i then (i, v) else e)).find?
        (fun e => e.1 == j) =
      l.find? (fun e => e.1 == j) := by
  induction l with
  | nil => rfl
  | cons a tl ih =>
      by_cases h : a.1 = i
      · have hai : (a.1 == i) = true := beq_iff_eq.mpr h
        have hij : (i == j) = false := by
          apply beq_eq_false_iff_ne.mpr
          exact fun hc => hj (hc.symm)
        have haj : (a.1 == j) = false := by
          apply beq_eq_false_iff_ne.mpr
          rw [h]
          exact fun hc => hj (hc.symm)
        simp only [List.map_cons, hai, if_true]
        rw [List.find?_cons_of_neg _ (by simp [hij]),
          List.find?_cons_of_neg _ (by simp [haj])]
        exact ih
      · have hai : (a.1 == i) = false := beq_eq_false_iff_ne.mpr h
        simp only [List.map_cons, hai, Bool.false_eq_true, if_false]
        by_cases h2 : a.1 = j
        · rw [List.find?_cons_of_pos _ (by simp [h2]),
            List.find?_cons_of_pos _ (by simp [h2])]
        · have haj : (a.1 == j) = false := beq_eq_false_iff_ne.mpr h2
          rw [List.find?_cons_of_neg _ (by simp [haj]),
            List.find?_cons_of_neg _ (by simp [haj])]
          exact ih

/-- Removing a path unbinds it. -/
theorem FS.lookupPath_removePath_self (fs : FS) (p : String) :
    (fs.removePath p).lookupPath p = none := by
  simp [FS.lookupPath, FS.removePath, find_filter_eq_none]

/-- Removing a path leaves other paths bound as before. -/
theorem FS.lookupPath_removePath_ne (fs : FS) (p q : String) (hq : q ≠ p) :
    (fs.removePath p).lookupPath q = fs.lookupPath q := by
  simp [FS.lookupPath, FS.removePath, find_filter_ne _ _ _ hq]

/-- Updating an inode does not change any path binding. -/
theorem FS.lookupPath_setInode (fs : FS) (i : Nat) (ino : Inode)
    (q : String) : (fs.setInode i ino).lookupPath q = fs.lookupPath q :=
  rfl

/-- Reading the updated inode back. -/
theorem FS.getInode_setInode_self (fs : FS) (i : Nat) (ino : Inode) :
    (fs.setInode i ino).getInode i =
      (fs.getInode i).map (fun _ => ino) := by
  unfold FS.getInode FS.setInode
  rw [find_map_update_self]
  cases fs.store.find? (fun e => e.1 == i) <;> rfl

/-- Updating one inode leaves the others as they were. -/
theorem FS.getInode_setInode_ne (fs : FS) (i j : Nat) (ino : Inode)
    (hj : j ≠ i) : (fs.setInode i ino).getInode j = fs.getInode j := by
  unfold FS.getInode FS.setInode
  rw [find_map_update_ne _ _ _ _ hj]

/-- A fresh entry does not disturb the reading of an existing distinct
path whose inode id is not the fresh id. -/
theorem FS.readPath_addEntry_ne (fs : FS) (p q : String) (ino : Inode)
    (i : Nat) (hq : q ≠ p) (hl : fs.lookupPath q = some i)
    (hin : i ≠ fs.next) :
    (fs.addEntry p ino).readPath q = fs.readPath q := by
  have hqp : (p == q) = false :=
    beq_eq_false_iff_ne.mpr (fun hc => (hq hc.symm).elim)
  have hlq : (fs.addEntry p ino).lookupPath q = fs.lookupPath q := by
    unfold FS.lookupPath FS.addEntry
    rw [List.find?_cons_of_neg _ (by simp [hqp])]
  have hni : ((fs.next : Nat) == i) = false :=
    beq_eq_false_iff_ne.mpr (fun hc => (hin hc.symm).elim)
  have hgi : (fs.addEntry p ino).getInode i = fs.getInode i := by
    unfold FS.getInode FS.addEntry
    rw [List.find?_cons_of_neg _ (by simp [hni])]
  unfold FS.readPath
  rw [hlq, hl]
  dsimp only
  rw [hgi]

/-- Removing one path does not change what is read at another path. -/
theorem FS.readPath_removePath_ne (fs : FS) (p q : String) (hq : q ≠ p) :
    (fs.removePath p).readPath q = fs.readPath q := by
  unfold FS.readPath
  rw [FS.lookupPath_removePath_ne fs p q hq]
  rfl

/-! ## Claim C7 -/

/-- C7.  For a backup file handed to the compression step: when every
step succeeds, the compressed file exists at the destination (carrying
the compressed stream) and the original uncompressed file is deleted;
when any step fails (source open, source stat, destination open, gzip
writer creation, or the copy), the original uncompressed file is
retained unchanged.  Side conditions: the source exists with inode i,
source and destination are distinct paths, the destination does not yet
exist, and i is not the next fresh inode id (a well-formed disk). -/
theorem c7_compress_file_safety (fs : FS) (fa : Faults) (src dst : String)
    (level now : Int) (i : Nat)
    (hsrc : fs.lookupPath src = some i) (hne : src ≠ dst)
    (hdst : fs.lookupPath dst = none) (hi : i ≠ fs.next) :
    (fa.cOpenFails = false → fa.cStatFails = false → fa.cDstFails = false →
      fa.cGzipFails = false → fa.cCopyFails = false →
      (compressFile fs fa src dst level now).1 = none ∧
      ((compressFile fs fa src dst level now).2).lookupPath src = none ∧
      ((compressFile fs fa src dst level now).2).readPath dst =
        some (gzipEncode level
          (((fs.getInode i).map (fun ino => ino.content)).getD []))) ∧
    ((fa.cOpenFails = true ∨ fa.cStatFails = true ∨ fa.cDstFails = true ∨
      fa.cGzipFails = true ∨ fa.cCopyFails = true) →
      ((compressFile fs fa src dst level now).2).readPath src =
        fs.readPath src) := by
  have hopen : fs.openTrunc dst now =
      (fs.next, fs.addEntry dst { content := [], modTime := now }) := by
    unfold FS.openTrunc
    rw [hdst]
  constructor
  · intro hco hcs hcd hcg hcc
    unfold compressFile
    rw [hsrc]
    rw [hco, hcs, hcd, hcg, hcc]
    simp only [Bool.false_eq_true, if_false, hopen]
    refine ⟨trivial, ?_, ?_⟩
    · unfold deleteFile
      exact FS.lookupPath_removePath_self _ src
    · unfold deleteFile
      rw [FS.readPath_removePath_ne _ src dst (Ne.symm hne)]
      have hl2 : ∀ v : Inode,
          ((fs.addEntry dst { content := [], modTime := now }).setInode
            fs.next v).lookupPath dst = some fs.next := by
        intro v
        rw [FS.lookupPath_setInode]
        unfold FS.lookupPath FS.addEntry
        rw [List.find?_cons_of_pos _ (by simp)]
        rfl
      unfold FS.readPath
      rw [hl2]
      dsimp only
      rw [FS.getInode_setInode_self]
      have : (fs.addEntry dst { content := [], modTime := now }).getInode
          fs.next = some { content := [], modTime := now } := by
        unfold FS.getInode FS.addEntry
        rw [List.find?_cons_of_pos _ (by simp)]
        rfl
      rw [this]
      rfl
  · intro hdisj
    unfold compressFile
    rw [hsrc]
    split_ifs with h1 h2 h3 h4 h5
    · rfl
    · rfl
    · rfl
    · rw [hopen]
      dsimp only
      exact FS.readPath_addEntry_ne fs dst src _ i hne hsrc hi
    · rw [hopen]
      dsimp only
      exact FS.readPath_addEntry_ne fs dst src _ i hne hsrc hi
    · rcases hdisj with h | h | h | h | h <;> simp_all

/-- Witness for C7: the success conjunct at a fault-free run on the
concrete backup file, and the retention conjunct with a failing gzip
writer creation. -/
theorem c7_compress_file_safety_witness :
    ((compressFile c7fs noFaults "/d/rotating-a-app.log"
        "/d/rotating-a-app.log.gz" 6 5).1 = none ∧
      ((compressFile c7fs noFaults "/d/rotating-a-app.log"
        "/d/rotating-a-app.log.gz" 6 5).2).lookupPath
          "/d/rotating-a-app.log" = none ∧
      ((compressFile c7fs noFaults "/d/rotating-a-app.log"
        "/d/rotating-a-app.log.gz" 6 5).2).readPath
          "/d/rotating-a-app.log.gz" =
        some (gzipEncode 6
          (((c7fs.getInode 0).map (fun ino => ino.content)).getD []))) ∧
    ((compressFile c7fs gzFaults "/d/rotating-a-app.log"
        "/d/rotating-a-app.log.gz" 6 5).2).readPath
          "/d/rotating-a-app.log" = c7fs.readPath "/d/rotating-a-app.log" :=
  ⟨(c7_compress_file_safety c7fs noFaults "/d/rotating-a-app.log"
      "/d/rotating-a-app.log.gz" 6 5 0 rfl (by decide) rfl
      (by decide)).1 rfl rfl rfl rfl rfl,
    (c7_compress_file_safety c7fs gzFaults "/d/rotating-a-app.log"
      "/d/rotating-a-app.log.gz" 6 5 0 rfl (by decide) rfl
      (by decide)).2 (Or.inr (Or.inr (Or.inr (Or.inl rfl))))⟩

/-! ## Field-preservation lemmas for the writer operations -/

/-- Which fields the private close leaves untouched, and its two
possible outcomes. -/
theorem closeWriter_shape (w : World) (fa : Faults) :
    RotatingFile.closeWriter w fa = (some Err.closeErr, w) ∨
    RotatingFile.closeWriter w fa =
      (none, { w with rf := { w.rf with writer := none, used := 0 } }) := by
  unfold RotatingFile.closeWriter
  rcases w.rf.writer with _ | i
  · right
    rfl
  · by_cases h : fa.closeFails = true
    · left
      simp [h]
    · right
      simp [h]

/-- The configuration fields a world's rf keeps across closeWriter. -/
theorem closeWriter_pres (w : World) (fa : Faults) :
    ((RotatingFile.closeWriter w fa).2).rf.option = w.rf.option ∧
    ((RotatingFile.closeWriter w fa).2).rf.file = w.rf.file ∧
    ((RotatingFile.closeWriter w fa).2).rf.folder = w.rf.folder ∧
    ((RotatingFile.closeWriter w fa).2).rf.filename = w.rf.filename ∧
    ((RotatingFile.closeWriter w fa).2).rf.cleaning = w.rf.cleaning ∧
    ((RotatingFile.closeWriter w fa).2).fs = w.fs ∧
    ((RotatingFile.closeWriter w fa).2).renames = w.renames := by
  rcases closeWriter_shape w fa with h | h <;> rw [h] <;>
    exact ⟨rfl, rfl, rfl, rfl, rfl, rfl, rfl⟩

/-- cleanBackups changes only the filesystem. -/
theorem cleanBackups_rf (w : World) (now : Int) :
    ((RotatingFile.cleanBackups w now).2).rf = w.rf := by
  unfold RotatingFile.cleanBackups
  by_cases h : ((RotatingFile.sortBackups w).length == 0) = true <;> simp [h]

/-- cleanBackups does not touch the rename trace. -/
theorem cleanBackups_renames (w : World) (now : Int) :
    ((RotatingFile.cleanBackups w now).2).renames = w.renames := by
  unfold RotatingFile.cleanBackups
  by_cases h : ((RotatingFile.sortBackups w).length == 0) = true <;> simp [h]

/-- The compression loop changes only the filesystem. -/
theorem compressLoop_pres (c : Ctx) (bks : List BackupF) :
    ∀ w : World, (compressLoop c bks w).rf = w.rf ∧
      (compressLoop c bks w).renames = w.renames := by
  induction bks with
  | nil => intro w; exact ⟨rfl, rfl⟩
  | cons bk tl ih =>
      intro w
      unfold compressLoop at ih ⊢
      rw [List.foldl_cons]
      by_cases h : strHasSuffix bk.file compressExtension = true
      · rw [if_pos h]
        exact ih w
      · rw [if_neg h]
        exact ih _

/-- The compression loop leaves the writer state unchanged. -/
theorem compressLoop_rf (c : Ctx) (bks : List BackupF) (w : World) :
    (compressLoop c bks w).rf = w.rf :=
  (compressLoop_pres c bks w).1

/-- The compression loop leaves the rename trace unchanged. -/
theorem compressLoop_renames (c : Ctx) (bks : List BackupF) (w : World) :
    (compressLoop c bks w).renames = w.renames :=
  (compressLoop_pres c bks w).2

/-- tidyBackups preserves everything in the writer state but the
cleaning flag, and never touches the rename trace. -/
theorem tidy_pres (w : World) (c : Ctx) :
    ((RotatingFile.tidyBackups w c).rf.option = w.rf.option) ∧
    ((RotatingFile.tidyBackups w c).rf.writer = w.rf.writer) ∧
    ((RotatingFile.tidyBackups w c).rf.used = w.rf.used) ∧
    ((RotatingFile.tidyBackups w c).rf.file = w.rf.file) ∧
    ((RotatingFile.tidyBackups w c).rf.folder = w.rf.folder) ∧
    ((RotatingFile.tidyBackups w c).rf.filename = w.rf.filename) ∧
    ((RotatingFile.tidyBackups w c).renames = w.renames) := by
  unfold RotatingFile.tidyBackups
  by_cases h : w.rf.cleaning = true
  · rw [if_pos h]
    exact ⟨rfl, rfl, rfl, rfl, rfl, rfl, rfl⟩
  · rw [if_neg h]
    by_cases h2 : w.rf.option.CompressLevel ≤ 0 <;>
      refine ⟨?_, ?_, ?_, ?_, ?_, ?_, ?_⟩ <;>
        simp [h2, cleanBackups_rf, cleanBackups_renames,
          compressLoop_rf, compressLoop_renames]

/-- tidyBackups preserves the option record. -/
theorem tidy_option (w : World) (c : Ctx) :
    (RotatingFile.tidyBackups w c).rf.option = w.rf.option :=
  (tidy_pres w c).1

/-- tidyBackups preserves the writer handle. -/
theorem tidy_writer (w : World) (c : Ctx) :
    (RotatingFile.tidyBackups w c).rf.writer = w.rf.writer :=
  (tidy_pres w c).2.1

/-- tidyBackups preserves the used counter. -/
theorem tidy_used (w : World) (c : Ctx) :
    (RotatingFile.tidyBackups w c).rf.used = w.rf.used :=
  (tidy_pres w c).2.2.1

/-- tidyBackups preserves the active path. -/
theorem tidy_file (w : World) (c : Ctx) :
    (RotatingFile.tidyBackups w c).rf.file = w.rf.file :=
  (tidy_pres w c).2.2.2.1

/-- tidyBackups preserves the folder. -/
theorem tidy_folder (w : World) (c : Ctx) :
    (RotatingFile.tidyBackups w c).rf.folder = w.rf.folder :=
  (tidy_pres w c).2.2.2.2.1

/-- tidyBackups preserves the filename. -/
theorem tidy_filename (w : World) (c : Ctx) :
    (RotatingFile.tidyBackups w c).rf.filename = w.rf.filename :=
  (tidy_pres w c).2.2.2.2.2.1

/-- tidyBackups preserves the rename trace. -/
theorem tidy_renames (w : World) (c : Ctx) :
    (RotatingFile.tidyBackups w c).renames = w.renames :=
  (tidy_pres w c).2.2.2.2.2.2

/-- The rename-or-warn step leaves the writer state unchanged. -/
theorem renameOrWarn_rf (w : World) (a b : String) :
    (renameOrWarn w a b).rf = w.rf := by
  unfold renameOrWarn
  rcases w.fs.rename a b with _ | fs1 <;> rfl

/-- The rename-or-warn step leaves the rename trace unchanged. -/
theorem renameOrWarn_renames (w : World) (a b : String) :
    (renameOrWarn w a b).renames = w.renames := by
  unfold renameOrWarn
  rcases w.fs.rename a b with _ | fs1 <;> rfl

/-- rotate preserves the configuration fields of the writer state. -/
theorem rotate_pres (w : World) (c : Ctx) :
    ((RotatingFile.rotate w c).2).rf.option = w.rf.option ∧
    ((RotatingFile.rotate w c).2).rf.file = w.rf.file ∧
    ((RotatingFile.rotate w c).2).rf.folder = w.rf.folder ∧
    ((RotatingFile.rotate w c).2).rf.filename = w.rf.filename := by
  unfold RotatingFile.rotate
  rcases closeWriter_shape w c.faults with h | h
  · rw [h]
    exact ⟨rfl, rfl, rfl, rfl⟩
  · rw [h]
    dsimp only
    refine ⟨?_, ?_, ?_, ?_⟩ <;>
      by_cases hg : (¬w.rf.option.Backups = 0 ∧ ¬w.rf.option.MaxAge = 0) <;>
        by_cases hrn : c.faults.renameFails = true <;>
          by_cases hcr : c.faults.createFails = true <;>
            (try simp [hg, hrn, hcr, tidy_option, tidy_file, tidy_folder,
              tidy_filename, renameOrWarn_rf]) <;>
            (repeat' split) <;>
              (try simp [tidy_option, tidy_file, tidy_folder, tidy_filename,
                renameOrWarn_rf])

/-- A successful rotation under a size policy resets the used counter
to zero. -/
theorem rotate_used (w : World) (c : Ctx)
    (hsize : w.rf.option.MaxSize > 0)
    (hok : (RotatingFile.rotate w c).1 = none) :
    ((RotatingFile.rotate w c).2).rf.used = 0 := by
  unfold RotatingFile.rotate at hok ⊢
  rcases closeWriter_shape w c.faults with h | h
  · rw [h] at hok
    simp at hok
  · rw [h] at hok ⊢
    dsimp only at hok ⊢
    by_cases hB : w.rf.option.Backups = 0 <;>
      by_cases hA : w.rf.option.MaxAge = 0 <;>
        by_cases hrn : c.faults.renameFails = true <;>
          by_cases hcr : c.faults.createFails = true <;>
            (try simp_all [tidy_option, tidy_used, renameOrWarn_rf]) <;>
            (repeat' split) <;>
              (try simp_all [tidy_option, tidy_used, renameOrWarn_rf])

/-- The openWriterFinish helper preserves the configuration of the
world produced by the rotation. -/
theorem openWriterFinish_pres (r : Option Err × World) (ino : Nat) :
    ((openWriterFinish r ino).2).rf.option = (r.2).rf.option ∧
    ((openWriterFinish r ino).2).rf.file = (r.2).rf.file ∧
    ((openWriterFinish r ino).2).rf.folder = (r.2).rf.folder ∧
    ((openWriterFinish r ino).2).rf.filename = (r.2).rf.filename := by
  rcases r with ⟨_ | e, w3⟩ <;> simp [openWriterFinish, setWriter]

/-- When openWriterFinish reports success the handle opened at the top
of openWriter is stored in the writer field. -/
theorem openWriterFinish_writer_ok (r : Option Err × World) (ino : Nat)
    (h : (openWriterFinish r ino).1 = none) :
    ((openWriterFinish r ino).2).rf.writer = some ino := by
  rcases r with ⟨_ | e, w3⟩ <;> simp_all [openWriterFinish, setWriter]

/-- openWriter preserves the configuration fields of the writer
state. -/
theorem openWriter_pres (w : World) (c : Ctx) :
    ((RotatingFile.openWriter w c).2).rf.option = w.rf.option ∧
    ((RotatingFile.openWriter w c).2).rf.file = w.rf.file ∧
    ((RotatingFile.openWriter w c).2).rf.folder = w.rf.folder ∧
    ((RotatingFile.openWriter w c).2).rf.filename = w.rf.filename := by
  unfold RotatingFile.openWriter
  refine ⟨?_, ?_, ?_, ?_⟩ <;>
    (repeat' split) <;>
      (try simp_all [setWriter, openWriterFinish_pres, rotate_pres]) <;>
      (repeat' split) <;>
        simp_all [setWriter, openWriterFinish_pres, rotate_pres]

/-- A successful openWriter leaves an open handle in the writer
field. -/
theorem openWriter_writer_ok (w : World) (c : Ctx)
    (hok : (RotatingFile.openWriter w c).1 = none) :
    ∃ j, ((RotatingFile.openWriter w c).2).rf.writer = some j := by
  unfold RotatingFile.openWriter at hok ⊢
  by_cases ho : c.faults.openFails = true
  · rw [if_pos ho] at hok
    simp at hok
  · rw [if_neg ho] at hok ⊢
    by_cases hm : w.rf.option.MaxSize > 0
    · rw [if_pos hm] at hok ⊢
      by_cases hs : c.faults.statFails = true
      · rw [if_pos hs] at hok
        simp at hok
      · rw [if_neg hs] at hok ⊢
        dsimp only at hok ⊢
        split at hok
        · rename_i hgt
          rw [if_pos hgt]
          exact ⟨_, openWriterFinish_writer_ok _ _ hok⟩
        · rename_i hgt
          rw [if_neg hgt]
          exact ⟨_, rfl⟩
    · rw [if_neg hm] at hok ⊢
      exact ⟨_, rfl⟩

/-- The error component writeFinish reports is the rotation's. -/
theorem writeFinish_err (r : Option Err × World) (n : Nat) :
    (writeFinish r n).1.2 = r.1 := by
  rcases r with ⟨_ | e, w4⟩ <;> rfl

/-- The world writeFinish returns is the rotation's. -/
theorem writeFinish_world (r : Option Err × World) (n : Nat) :
    (writeFinish r n).2 = r.2 := by
  rcases r with ⟨_ | e, w4⟩ <;> rfl

/-- The write body keeps the used counter at or below MaxSize whenever
it reports success under a size policy. -/
theorem writeBody_used_bound (w1 : World) (c : Ctx) (b : Content)
    (hsize : w1.rf.option.MaxSize > 0)
    (hok : (RotatingFile.writeBody w1 c b).1.2 = none) :
    ((RotatingFile.writeBody w1 c b).2).rf.used ≤ w1.rf.option.MaxSize := by
  unfold RotatingFile.writeBody at hok ⊢
  revert hok
  rcases hwr : c.faults.writeResult with _ | k <;> intro hok
  · dsimp only at hok ⊢
    rw [if_pos hsize] at hok ⊢
    by_cases hgt : w1.rf.used + (b.length : Int) > w1.rf.option.MaxSize
    · rw [if_pos hgt] at hok ⊢
      rw [writeFinish_err] at hok
      rw [writeFinish_world]
      have hu := rotate_used
        { w1 with
          fs := w1.fs.appendInode (w1.rf.writer.getD 0) b,
          rf := { w1.rf with used := w1.rf.used + (b.length : Int) } } c
        hsize hok
      rw [hu]
      exact le_of_lt hsize
    · rw [if_neg hgt] at hok ⊢
      exact le_of_not_lt hgt
  · simp at hok

/-! ## Claim C5 -/

/-- C5.  Under a size policy MaxSize = N greater than 0, immediately
after any Write of a payload of at most N bytes that returns
successfully, the tracked used counter is at most N: a write pushing it
beyond N rotates, which resets the counter to 0, before Write
returns. -/
theorem c5_used_bounded (w : World) (c : Ctx) (b : Content)
    (hsize : w.rf.option.MaxSize > 0)
    (_hlen : (b.length : Int) ≤ w.rf.option.MaxSize)
    (hok : (RotatingFile.Write w c b).1.2 = none) :
    ((RotatingFile.Write w c b).2).rf.used ≤ w.rf.option.MaxSize := by
  unfold RotatingFile.Write at hok ⊢
  revert hok
  rcases hwcase : w.rf.writer with _ | i <;> intro hok
  · dsimp only at hok ⊢
    revert hok
    rcases ho : RotatingFile.openWriter w c with ⟨e, w1⟩
    intro hok
    rcases e with _ | e
    · dsimp only at hok ⊢
      have hp : w1.rf.option = w.rf.option := by
        have h2 := (openWriter_pres w c).1
        rw [ho] at h2
        exact h2
      have hs1 : w1.rf.option.MaxSize > 0 := by
        rw [hp]
        exact hsize
      have := writeBody_used_bound w1 c b hs1 hok
      rw [hp] at this
      exact this
    · simp at hok
  · dsimp only at hok ⊢
    exact writeBody_used_bound w c b hsize hok

/-- Witness for C5: a 2-byte write on the open-writer world with 3 of 4
bytes used (the write triggers a successful rotation, resetting the
counter). -/
theorem c5_used_bounded_witness :
    ((RotatingFile.Write c2w c5ctx [7, 8]).2).rf.used ≤
      c2w.rf.option.MaxSize :=
  c5_used_bounded c2w c5ctx [7, 8] (by decide) (by decide) (by decide)

/-! ## Lemmas on the retention index computation -/

/-- When slices.IndexFunc finds no backup at or after the expiry
instant, every backup is strictly older than it. -/
theorem indexFunc_none_countP (expired : Int) (bs : List BackupF)
    (hnone : indexFunc (fun b => decide (expired ≤ b.modTime)) bs = none) :
    bs.countP (fun b => decide (b.modTime < expired)) = bs.length := by
  induction bs with
  | nil => rfl
  | cons b tl ih =>
      unfold indexFunc at hnone
      by_cases hb : expired ≤ b.modTime
      · simp [hb] at hnone
      · rw [if_neg (by simp [hb])] at hnone
        have htl : indexFunc (fun x => decide (expired ≤ x.modTime)) tl = none :=
          Option.map_eq_none'.mp hnone
        rw [List.countP_cons_of_pos _ _ (by simp [lt_of_not_le hb]), ih htl]
        rfl

/-- On a strictly ascending backup list, the index of the first backup
at or after the expiry instant is the number of backups strictly older
than it. -/
theorem indexFunc_some_countP (expired : Int) (bs : List BackupF)
    (hpair : bs.Pairwise (fun x y => x.modTime < y.modTime)) :
    ∀ i, indexFunc (fun b => decide (expired ≤ b.modTime)) bs = some i →
      bs.countP (fun b => decide (b.modTime < expired)) = i := by
  induction bs with
  | nil =>
      intro i hsome
      simp [indexFunc] at hsome
  | cons b tl ih =>
      intro i hsome
      unfold indexFunc at hsome
      by_cases hb : expired ≤ b.modTime
      · rw [if_pos (by simp [hb])] at hsome
        have hi : i = 0 := (Option.some.injEq _ _).mp hsome.symm
        subst hi
        rw [List.countP_cons_of_neg _ _ (by simp [not_lt.mpr hb])]
        apply List.countP_eq_zero.mpr
        intro x hx
        have hbx : b.modTime < x.modTime :=
          (List.pairwise_cons.mp hpair).1 x hx
        simp [not_lt.mpr (le_of_lt (lt_of_le_of_lt hb hbx))]
      · rw [if_neg (by simp [hb])] at hsome
        rcases Option.map_eq_some'.mp hsome with ⟨j, hj, hji⟩
        rw [List.countP_cons_of_pos _ _ (by simp [lt_of_not_le hb]),
          ih (List.Pairwise.of_cons hpair) j hj, hji]

/-- toNat commutes with max. -/
theorem toNat_max (a b : Int) : (max a b).toNat = max a.toNat b.toNat := by
  rcases le_total a b with h | h
  · rw [max_eq_right h, Nat.max_eq_right (Int.toNat_le_toNat h)]
  · rw [max_eq_left h, Nat.max_eq_left (Int.toNat_le_toNat h)]

/-! ## Claim C3 -/

/-- C3.  One maintenance pass over K matching backups with pairwise
distinct (strictly ascending) modification times, under Backups = C
greater than 0 and MaxAge = A greater than 0, deletes exactly
max(K - C, number of backups strictly older than now - A) files
(retentionCut), and they are exactly the oldest ones: cleanBackups
returns the ascending list with that prefix removed and removes exactly
that prefix from the disk; when every backup is older than now - A, all
K are deleted. -/
theorem c3_retention_correctness (w : World) (now : Int)
    (hC : w.rf.option.Backups > 0) (hA : w.rf.option.MaxAge > 0)
    (hsorted : (RotatingFile.sortBackups w).Pairwise
      (fun x y => x.modTime < y.modTime)) :
    RotatingFile.cleanBackups w now =
      ((RotatingFile.sortBackups w).drop
          (retentionCut (RotatingFile.sortBackups w) w.rf.option.Backups
            w.rf.option.MaxAge now),
        { w with fs := deleteBackupFiles w.fs ((RotatingFile.sortBackups w).take (retentionCut (RotatingFile.sortBackups w) w.rf.option.Backups w.rf.option.MaxAge now)) }) ∧
    ((∀ b ∈ RotatingFile.sortBackups w, b.modTime < now - w.rf.option.MaxAge) →
      (RotatingFile.cleanBackups w now).1 = []) := by
  have main : RotatingFile.cleanBackups w now =
      ((RotatingFile.sortBackups w).drop
          (retentionCut (RotatingFile.sortBackups w) w.rf.option.Backups
            w.rf.option.MaxAge now),
        { w with fs := deleteBackupFiles w.fs ((RotatingFile.sortBackups w).take (retentionCut (RotatingFile.sortBackups w) w.rf.option.Backups w.rf.option.MaxAge now)) }) := by
    unfold retentionCut
    unfold RotatingFile.cleanBackups
    by_cases h0 : ((RotatingFile.sortBackups w).length == 0) = true
    · have hlen0 : (RotatingFile.sortBackups w).length = 0 := by
        simpa using h0
      have hnil : RotatingFile.sortBackups w = [] :=
        List.eq_nil_of_length_eq_zero hlen0
      rw [if_pos h0, hnil]
      have hM : (max ((([] : List BackupF).length : Int) - w.rf.option.Backups)
          ((([] : List BackupF).countP
            (fun b => decide (b.modTime < now - w.rf.option.MaxAge)) : Int))).toNat = 0 := by
        simp
        omega
      rw [hM]
      rfl
    · rw [if_neg h0]
      dsimp only
      rw [if_pos hC, if_pos hA]
      rcases hidx : indexFunc
          (fun b => decide (now - w.rf.option.MaxAge ≤ b.modTime))
          (RotatingFile.sortBackups w) with _ | idx
      · have hcnt := indexFunc_none_countP (now - w.rf.option.MaxAge)
          (RotatingFile.sortBackups w) hidx
        have hM : (max (((RotatingFile.sortBackups w).length : Int) - w.rf.option.Backups)
            (((RotatingFile.sortBackups w).countP
              (fun b => decide (b.modTime < now - w.rf.option.MaxAge)) : Int))).toNat =
            (RotatingFile.sortBackups w).length := by
          rw [hcnt]
          omega
        rw [hM]
      · have hcnt := indexFunc_some_countP (now - w.rf.option.MaxAge)
          (RotatingFile.sortBackups w) hsorted idx hidx
        have hd0 : (if ((RotatingFile.sortBackups w).length : Int) - w.rf.option.Backups > 0
            then (((RotatingFile.sortBackups w).length : Int) - w.rf.option.Backups).toNat
            else 0) = (((RotatingFile.sortBackups w).length : Int) - w.rf.option.Backups).toNat := by
          by_cases hd : ((RotatingFile.sortBackups w).length : Int) - w.rf.option.Backups > 0
          · rw [if_pos hd]
          · rw [if_neg hd]
            omega
        have hM : (max (((RotatingFile.sortBackups w).length : Int) - w.rf.option.Backups)
            (((RotatingFile.sortBackups w).countP
              (fun b => decide (b.modTime < now - w.rf.option.MaxAge)) : Int))).toNat =
            max idx ((((RotatingFile.sortBackups w).length : Int) - w.rf.option.Backups)).toNat := by
          rw [hcnt]
          omega
        rw [hd0, hM]
  constructor
  · exact main
  · intro hall
    have hcnt : (RotatingFile.sortBackups w).countP
        (fun b => decide (b.modTime < now - w.rf.option.MaxAge)) =
        (RotatingFile.sortBackups w).length :=
      List.countP_eq_length.mpr (fun b hb => by simp [hall b hb])
    rw [main]
    dsimp only
    unfold retentionCut
    have hM : (max (((RotatingFile.sortBackups w).length : Int) - w.rf.option.Backups)
        (((RotatingFile.sortBackups w).countP
          (fun b => decide (b.modTime < now - w.rf.option.MaxAge)) : Int))).toNat =
        (RotatingFile.sortBackups w).length := by
      rw [hcnt]
      omega
    rw [hM]
    exact List.drop_length _

/-- Witness for C3 at the concrete four-backup world: the three oldest
are deleted (max(4 - 2, 3) = 3) and the newest survives. -/
theorem c3_retention_correctness_witness :
    RotatingFile.cleanBackups c3w 100 =
      ((RotatingFile.sortBackups c3w).drop
          (retentionCut (RotatingFile.sortBackups c3w) c3w.rf.option.Backups
            c3w.rf.option.MaxAge 100),
        { c3w with fs := deleteBackupFiles c3w.fs ((RotatingFile.sortBackups c3w).take (retentionCut (RotatingFile.sortBackups c3w) c3w.rf.option.Backups c3w.rf.option.MaxAge 100)) }) :=
  (c3_retention_correctness c3w 100 (by decide) (by decide) (by decide)).1

/-- The private close returns success with the writer cleared whenever
the handle close fault is off. -/
theorem closeWriter_ok (w : World) (fa : Faults) (h : fa.closeFails = false) :
    RotatingFile.closeWriter w fa =
      (none, { w with rf := { w.rf with writer := none, used := 0 } }) := by
  unfold RotatingFile.closeWriter
  rcases w.rf.writer with _ | i <;> simp [h]

/-- Appending through a handle never changes the directory. -/
theorem appendInode_dir (fs : FS) (i : Nat) (b : Content) :
    (fs.appendInode i b).dir = fs.dir := by
  unfold FS.appendInode
  rcases fs.getInode i with _ | ino <;> rfl

/-- Opening with truncation either reuses the existing binding or adds
one fresh entry for the path. -/
theorem openTrunc_dirExt (fs : FS) (p : String) (now : Int) :
    (fs.openTrunc p now).2.dir = fs.dir ∨
    (fs.openTrunc p now).2.dir = (p, fs.next) :: fs.dir := by
  unfold FS.openTrunc
  rcases fs.lookupPath p with _ | i
  · right
    rfl
  · left
    rfl

/-- Opening for append either reuses the existing binding or adds one
fresh entry for the path. -/
theorem openAppend_dirExt (fs : FS) (p : String) (now : Int) :
    (fs.openAppend p now).2.dir = fs.dir ∨
    (fs.openAppend p now).2.dir = (p, fs.next) :: fs.dir := by
  unfold FS.openAppend
  rcases fs.lookupPath p with _ | i
  · right
    rfl
  · left
    rfl

/-- openWriterFinish never changes the filesystem of the world the
rotation produced. -/
theorem openWriterFinish_fs (r : Option Err × World) (ino : Nat) :
    ((openWriterFinish r ino).2).fs = (r.2).fs := by
  rcases r with ⟨_ | e, w3⟩ <;> rfl

/-- The write body preserves the configuration fields of the writer
state. -/
theorem writeBody_pres (w1 : World) (c : Ctx) (b : Content) :
    ((RotatingFile.writeBody w1 c b).2).rf.option = w1.rf.option ∧
    ((RotatingFile.writeBody w1 c b).2).rf.file = w1.rf.file ∧
    ((RotatingFile.writeBody w1 c b).2).rf.folder = w1.rf.folder ∧
    ((RotatingFile.writeBody w1 c b).2).rf.filename = w1.rf.filename := by
  unfold RotatingFile.writeBody
  rcases c.faults.writeResult with _ | k
  · dsimp only
    refine ⟨?_, ?_, ?_, ?_⟩ <;>
      (repeat' split) <;>
        simp_all [writeFinish_world, rotate_pres]
  · exact ⟨rfl, rfl, rfl, rfl⟩

/-- Write preserves the configuration fields of the writer state. -/
theorem write_pres (w : World) (c : Ctx) (b : Content) :
    ((RotatingFile.Write w c b).2).rf.option = w.rf.option ∧
    ((RotatingFile.Write w c b).2).rf.file = w.rf.file ∧
    ((RotatingFile.Write w c b).2).rf.folder = w.rf.folder ∧
    ((RotatingFile.Write w c b).2).rf.filename = w.rf.filename := by
  unfold RotatingFile.Write
  rcases w.rf.writer with _ | i
  · rcases ho : RotatingFile.openWriter w c with ⟨e, w1⟩
    have hp := openWriter_pres w c
    rw [ho] at hp
    rcases e with _ | e
    · dsimp only
      have hb := writeBody_pres w1 c b
      exact ⟨hb.1.trans hp.1, hb.2.1.trans hp.2.1, hb.2.2.1.trans hp.2.2.1,
        hb.2.2.2.trans hp.2.2.2⟩
    · exact hp
  · exact writeBody_pres w c b

/-- With the count retention set to 0, a rotation performs no rename
and no maintenance: the directory gains at most a fresh entry for the
active path (from the truncate-create step). -/
theorem rotate_dirExt (w : World) (c : Ctx)
    (hB : w.rf.option.Backups = 0) :
    ∃ pre, ((RotatingFile.rotate w c).2).fs.dir = pre ++ w.fs.dir ∧
      ∀ e ∈ pre, e.1 = w.rf.file := by
  unfold RotatingFile.rotate
  rcases closeWriter_shape w c.faults with h | h <;> rw [h]
  · exact ⟨[], rfl, by simp⟩
  · dsimp only
    rw [if_neg (by simp [hB])]
    dsimp only
    by_cases hcr : c.faults.createFails = true
    · rw [if_pos hcr]
      exact ⟨[], rfl, by simp⟩
    · rw [if_neg hcr]
      dsimp only
      rcases openTrunc_dirExt w.fs w.rf.file c.now with hd | hd <;>
        (repeat' split) <;>
        · first
          | exact ⟨[], hd, by simp⟩
          | exact ⟨[(w.rf.file, w.fs.next)], hd, by simp⟩

/-- With the count retention set to 0, openWriter grows the directory
only by entries for the active path. -/
theorem openWriter_dirExt (w : World) (c : Ctx)
    (hB : w.rf.option.Backups = 0) :
    ∃ pre, ((RotatingFile.openWriter w c).2).fs.dir = pre ++ w.fs.dir ∧
      ∀ e ∈ pre, e.1 = w.rf.file := by
  unfold RotatingFile.openWriter
  by_cases ho : c.faults.openFails = true
  · rw [if_pos ho]
    exact ⟨[], rfl, by simp⟩
  · rw [if_neg ho]
    dsimp only
    have hopen := openAppend_dirExt w.fs w.rf.file c.now
    by_cases hm : w.rf.option.MaxSize > 0
    · rw [if_pos hm]
      by_cases hs : c.faults.statFails = true
      · rw [if_pos hs]
        rcases hopen with hd | hd
        · exact ⟨[], hd, by simp⟩
        · exact ⟨[(w.rf.file, w.fs.next)], hd, by simp⟩
      · rw [if_neg hs]
        split
        · have hrot := rotate_dirExt
            { w with
              fs := (w.fs.openAppend w.rf.file c.now).2,
              rf := { w.rf with
                used := (((w.fs.openAppend w.rf.file c.now).2).sizeOf
                  (w.fs.openAppend w.rf.file c.now).1 : Int) } } c hB
          rcases hrot with ⟨pre2, h2, hall2⟩
          rw [openWriterFinish_fs, h2]
          rcases hopen with hd | hd
          · exact ⟨pre2, by rw [hd], hall2⟩
          · refine ⟨pre2 ++ [(w.rf.file, w.fs.next)], by rw [hd]; simp, ?_⟩
            intro e he
            rcases List.mem_append.mp he with h3 | h3
            · exact hall2 e h3
            · simp at h3
              rw [h3]
        · rcases hopen with hd | hd
          · exact ⟨[], hd, by simp⟩
          · exact ⟨[(w.rf.file, w.fs.next)], hd, by simp⟩
    · rw [if_neg hm]
      rcases hopen with hd | hd
      · exact ⟨[], hd, by simp⟩
      · exact ⟨[(w.rf.file, w.fs.next)], hd, by simp⟩

/-- With the count retention set to 0, the write body grows the
directory only by entries for the active path. -/
theorem writeBody_dirExt (w1 : World) (c : Ctx) (b : Content)
    (hB : w1.rf.option.Backups = 0) :
    ∃ pre, ((RotatingFile.writeBody w1 c b).2).fs.dir = pre ++ w1.fs.dir ∧
      ∀ e ∈ pre, e.1 = w1.rf.file := by
  unfold RotatingFile.writeBody
  rcases c.faults.writeResult with _ | k
  · dsimp only
    split
    · split
      · have hrot := rotate_dirExt
          { w1 with
            fs := w1.fs.appendInode (w1.rf.writer.getD 0) b,
            rf := { w1.rf with used := w1.rf.used + (b.length : Int) } } c hB
        rcases hrot with ⟨pre2, h2, hall2⟩
        rw [writeFinish_world, h2, appendInode_dir]
        exact ⟨pre2, rfl, hall2⟩
      · exact ⟨[], appendInode_dir _ _ _, by simp⟩
    · exact ⟨[], appendInode_dir _ _ _, by simp⟩
  · exact ⟨[], appendInode_dir _ _ _, by simp⟩

/-- With the count retention set to 0, a Write grows the directory only
by entries for the active path: no backup file is ever created. -/
theorem write_dirExt (w : World) (c : Ctx) (b : Content)
    (hB : w.rf.option.Backups = 0) :
    ∃ pre, ((RotatingFile.Write w c b).2).fs.dir = pre ++ w.fs.dir ∧
      ∀ e ∈ pre, e.1 = w.rf.file := by
  unfold RotatingFile.Write
  rcases w.rf.writer with _ | i
  · rcases ho : RotatingFile.openWriter w c with ⟨e, w1⟩
    have hop := openWriter_dirExt w c hB
    rw [ho] at hop
    rcases hop with ⟨pre1, h1, hall1⟩
    have hp := openWriter_pres w c
    rw [ho] at hp
    rcases e with _ | e
    · dsimp only
      have hb := writeBody_dirExt w1 c b (by rw [hp.1]; exact hB)
      rcases hb with ⟨pre2, h2, hall2⟩
      refine ⟨pre2 ++ pre1, ?_, ?_⟩
      · rw [h2, h1]
        simp
      · intro x hx
        rcases List.mem_append.mp hx with h3 | h3
        · rw [hall2 x h3]
          exact hp.2.1
        · exact hall1 x h3
    · exact ⟨pre1, h1, hall1⟩
  · exact writeBody_dirExt w c b hB

/-- countBackups is the scan count of the directory. -/
theorem countBackups_eq_scanCount (w : World) :
    countBackups w = scanCount w.rf w.fs.dir :=
  rfl

/-- A directory entry that does not match the backup pattern does not
change the scan count. -/
theorem scanCount_cons (r : RotatingFile) (p : String) (j : Nat)
    (dir : List (String × Nat)) (h : matchesBackup r p = false) :
    scanCount r ((p, j) :: dir) = scanCount r dir := by
  unfold matchesBackup at h
  unfold scanCount
  by_cases hp : strHasPref p r.folder = true
  · rw [hp] at h
    simp only [Bool.true_and] at h
    simp [List.filter_cons, hp, h]
  · simp [List.filter_cons, hp]

/-- Prepending entries that all carry a non-matching path does not
change the scan count. -/
theorem scanCount_append (r : RotatingFile) (f : String)
    (pre dir : List (String × Nat)) (hall : ∀ e ∈ pre, e.1 = f)
    (hm : matchesBackup r f = false) :
    scanCount r (pre ++ dir) = scanCount r dir := by
  induction pre with
  | nil => rfl
  | cons e tl ih =>
      have he : e.1 = f := hall e (by simp)
      have h1 : matchesBackup r e.1 = false := by
        rw [he]
        exact hm
      rcases e with ⟨p, j⟩
      rw [List.cons_append, scanCount_cons r p j (tl ++ dir) h1]
      exact ih (fun x hx => hall x (by simp [hx]))

/-- With the count retention set to 0 and an active path that does not
itself match the backup pattern, a Write leaves the number of backup
files on disk unchanged. -/
theorem countBackups_write_zero (w : World) (c : Ctx) (b : Content)
    (hB : w.rf.option.Backups = 0)
    (hm : matchesBackup w.rf w.rf.file = false) :
    countBackups (RotatingFile.Write w c b).2 = countBackups w := by
  obtain ⟨pre, hdir, hall⟩ := write_dirExt w c b hB
  have hpres := write_pres w c b
  rw [countBackups_eq_scanCount, countBackups_eq_scanCount]
  have hsc : ∀ d, scanCount ((RotatingFile.Write w c b).2).rf d =
      scanCount w.rf d := by
    intro d
    unfold scanCount isBackupName
    rw [hpres.1, hpres.2.2.1, hpres.2.2.2]
  rw [hdir, hsc, scanCount_append w.rf w.rf.file pre w.fs.dir hall hm]

/-! ## Claim C4 -/

/-- C4.  The rename-to-backup step of a rotation runs if and only if
both retention values are nonzero (observed through the ghost osRename
trace; the inner close must succeed for the rotation to reach that
step); consequently, with Backups = 0, after any sequence of writes,
each possibly forcing a rotation, the number of backup files on disk is
still zero (assuming the active path itself does not look like a
backup file). -/
theorem c4_rename_gating :
    (∀ (w : World) (c : Ctx), c.faults.closeFails = false →
      ((((RotatingFile.rotate w c).2).renames ≠ w.renames) ↔
        (w.rf.option.Backups ≠ 0 ∧ w.rf.option.MaxAge ≠ 0))) ∧
    (∀ (l : List (Ctx × Content)) (w : World),
      w.rf.option.Backups = 0 →
      matchesBackup w.rf w.rf.file = false →
      countBackups w = 0 →
      countBackups (writeSeq w l) = 0) := by
  constructor
  · intro w c hcf
    unfold RotatingFile.rotate
    rw [closeWriter_ok w c.faults hcf]
    dsimp only
    by_cases hg : (w.rf.option.Backups ≠ 0 ∧ w.rf.option.MaxAge ≠ 0)
    · rw [if_pos hg]
      by_cases hrn : c.faults.renameFails = true
      · rw [if_pos hrn]
        dsimp only
        exact iff_of_true (List.cons_ne_self _ _) hg
      · rw [if_neg hrn]
        dsimp only
        by_cases hcr : c.faults.createFails = true
        · rw [if_pos hcr]
          dsimp only
          rw [tidy_renames, renameOrWarn_renames]
          exact iff_of_true (List.cons_ne_self _ _) hg
        · rw [if_neg hcr]
          dsimp only
          simp only [tidy_renames, renameOrWarn_renames]
          (repeat' split) <;>
            exact iff_of_true (List.cons_ne_self _ _) hg
    · rw [if_neg hg]
      dsimp only
      by_cases hcr : c.faults.createFails = true
      · rw [if_pos hcr]
        exact iff_of_false (fun hne => hne rfl) hg
      · rw [if_neg hcr]
        (repeat' split) <;>
          exact iff_of_false (fun hne => hne rfl) hg
  · intro l
    induction l with
    | nil =>
        intro w hB hm h0
        exact h0
    | cons p tl ih =>
        intro w hB hm h0
        have hstep : writeSeq w (p :: tl) =
            writeSeq ((RotatingFile.Write w p.1 p.2).2) tl := rfl
        rw [hstep]
        have hpres := write_pres w p.1 p.2
        apply ih
        · rw [hpres.1]
          exact hB
        · have hcongr : matchesBackup ((RotatingFile.Write w p.1 p.2).2).rf
              ((RotatingFile.Write w p.1 p.2).2).rf.file =
              matchesBackup w.rf w.rf.file := by
            unfold matchesBackup isBackupName
            rw [hpres.1, hpres.2.1, hpres.2.2.1, hpres.2.2.2]
          rw [hcongr]
          exact hm
        · rw [countBackups_write_zero w p.1 p.2 hB hm]
          exact h0

/-- Witness for C4: the rename-gating iff at the C1 world (both
retention values nonzero, fault-free context), and the zero-backups
consequence after two writes on a Backups = 0 world. -/
theorem c4_rename_gating_witness :
    ((((RotatingFile.rotate c1w c1ctx).2).renames ≠ c1w.renames) ↔
      (c1w.rf.option.Backups ≠ 0 ∧ c1w.rf.option.MaxAge ≠ 0)) ∧
    countBackups (writeSeq c4w [(c1ctx, [1]), (c5ctx, [2, 3])]) = 0 :=
  ⟨c4_rename_gating.1 c1w c1ctx rfl,
    c4_rename_gating.2 [(c1ctx, [1]), (c5ctx, [2, 3])] c4w rfl (by decide)
      (by decide)⟩

/-! ## Claim C1 -/

/-- C1 (code bug).  The spec says an oversized leftover file found on
first open is rotated before openWriter returns so that the first Write
lands in the freshly created active file.  openWriter does rotate
before returning, but it then stores the pre-rotation handle in the
writer field (the final assignment of openWriter), and on POSIX that
handle follows the renamed inode: the first Write lands in the renamed
backup file, while the freshly created active file stays empty.  At the
failing input (leftover of 5 bytes, threshold 4, one-byte first write):
Write returns (1, nil), the active file is empty, and the backup file
holds the old 5 bytes plus the new byte. -/
theorem c1_first_write_lands_in_backup :
    (RotatingFile.Write c1w c1ctx [9]).1 = (1, none) ∧
    FS.readPath (RotatingFile.Write c1w c1ctx [9]).2.fs "/d/app.log" = some [] ∧
    FS.readPath (RotatingFile.Write c1w c1ctx [9]).2.fs
      "/d/rotating-AAAAAAAA-app.log" = some [1, 2, 3, 4, 5, 9] := by
  refine ⟨?_, ?_, ?_⟩ <;> rfl

/-! ## Claim C9 -/

/-- C9.  WriteString is definitionally Write composed with the
string-to-bytes conversion: identical result, state and file effects
for every writer state and every string. -/
theorem c9_write_string_equiv (w : World) (c : Ctx) (s : String) :
    RotatingFile.WriteString w c s = RotatingFile.Write w c (toBytes s) :=
  rfl

/-! ## Claim C10 -/

/-- C10.  Close on a writer whose handle is already nil returns nil,
leaves the writer nil and the used counter zero, clears the
maintenance flag, and touches no file on disk (the filesystem component
of the world is unchanged). -/
theorem c10_close_idempotent (w : World) (fa : Faults)
    (h : w.rf.writer = none) :
    RotatingFile.Close w fa =
      (none, { w with rf :=
        { w.rf with writer := none, used := 0, cleaning := false } }) := by
  unfold RotatingFile.Close RotatingFile.closeWriter
  rw [h]

/-- Witness for C10 at the concrete closed-writer world. -/
theorem c10_close_idempotent_witness :
    RotatingFile.Close c10w noFaults =
      (none, { c10w with rf :=
        { c10w.rf with writer := none, used := 0, cleaning := false } }) :=
  c10_close_idempotent c10w noFaults rfl

/-! ## Claim C2 -/

/-- C2 counterexample.  Writer open with 3 of 4 bytes used; a 2-byte
write succeeds on disk (the active file grows to 5 bytes) and the
size-triggered rotation then fails at the close step: Write returns 0
with the rotation error, not the number 2 of bytes actually written,
refuting that an erroring Write always reports an accurate count. -/
theorem c2_counterexample :
    (RotatingFile.Write c2w c2ctx [7, 8]).1 = (0, some Err.closeErr) ∧
    FS.readPath (RotatingFile.Write c2w c2ctx [7, 8]).2.fs "/d/app.log" =
      some [1, 2, 3, 7, 8] := by
  refine ⟨?_, ?_⟩ <;> rfl

/-- C2 as amended: when the underlying handle write itself fails after
k bytes, Write returns k with the error (accurate count); but when the
write succeeds in full and the subsequent size-triggered rotation
fails, Write returns 0 together with the rotation error even though the
payload was written (the filesystem witnesses the appended bytes). -/
theorem c2_write_error_count (w : World) (c : Ctx) (b : Content) (i : Nat)
    (hw : w.rf.writer = some i) :
    (∀ k, c.faults.writeResult = some k → k ≤ b.length →
      (RotatingFile.Write w c b).1 = (k, some Err.writeErr)) ∧
    (c.faults.writeResult = none → c.faults.closeFails = true →
      w.rf.option.MaxSize > 0 →
      w.rf.used + (b.length : Int) > w.rf.option.MaxSize →
      (RotatingFile.Write w c b).1 = (0, some Err.closeErr) ∧
      (RotatingFile.Write w c b).2.fs = w.fs.appendInode i b) := by
  constructor
  · intro k hk hkle
    simp only [RotatingFile.Write, RotatingFile.writeBody, hw, hk]
    simp [Nat.min_eq_left hkle]
  · intro hwr hcf hms hused
    simp only [RotatingFile.Write, RotatingFile.writeBody, hw, hwr, hms,
      hused, if_true, writeFinish, RotatingFile.rotate,
      RotatingFile.closeWriter, hcf]
    simp

/-- Witness for C2: both conjuncts at the concrete scenario (partial
write of 1 byte; then full write with failing rotation). -/
theorem c2_write_error_count_witness :
    (RotatingFile.Write c2w c2pctx [7, 8]).1 = (1, some Err.writeErr) ∧
    ((RotatingFile.Write c2w c2ctx [7, 8]).1 = (0, some Err.closeErr) ∧
      (RotatingFile.Write c2w c2ctx [7, 8]).2.fs = c2w.fs.appendInode 0 [7, 8]) :=
  ⟨(c2_write_error_count c2w c2pctx [7, 8] 0 rfl).1 1 rfl (by decide),
    (c2_write_error_count c2w c2ctx [7, 8] 0 rfl).2 rfl rfl (by decide) (by decide)⟩

/-! ## Claim C6 -/

/-- C6 counterexample.  A Close issued while a maintenance pass is in
flight (cleaning flag true) whose inner handle close fails returns the
error immediately: the cleaning flag is still true when Close returns,
refuting that Close never returns before maintenance completed. -/
theorem c6_counterexample :
    (RotatingFile.Close c6w closeFaults).1 = some Err.closeErr ∧
    (RotatingFile.Close c6w closeFaults).2.rf.cleaning = true :=
  ⟨rfl, rfl⟩

/-- C6 as amended: when Close returns nil it has waited out any
in-flight maintenance pass, so the maintenance-in-flight flag is false
on return; only a Close that fails in the inner handle close can return
with the flag still set. -/
theorem c6_close_ok_drains (w w' : World) (fa : Faults)
    (h : RotatingFile.Close w fa = (none, w')) : w'.rf.cleaning = false := by
  unfold RotatingFile.Close at h
  rcases hcw : RotatingFile.closeWriter w fa with ⟨e, w1⟩
  rw [hcw] at h
  cases e with
  | some e => simp at h
  | none =>
      simp only [Prod.mk.injEq] at h
      rw [← h.2]

/-- Witness for C6: a successful Close on the in-flight world. -/
theorem c6_close_ok_drains_witness :
    ((RotatingFile.Close c6w noFaults).2).rf.cleaning = false :=
  c6_close_ok_drains c6w (RotatingFile.Close c6w noFaults).2 noFaults rfl

/-! ## Claim C8 -/

/-- C8 counterexample.  MaxAge(-1) does not fail construction: the
option setter returns no error (it only warns), stores the negative
value, and NewRotatingFile succeeds with MaxAge = -1, refuting that a
negative max age is a validation error. -/
theorem c8_counterexample :
    (WithMaxAge (-1) defaultOption).1 = none ∧
    (WithMaxAge (-1) defaultOption).2.MaxAge = -1 ∧
    (NewRotatingFile "/d/app.log" [WithMaxAge (-1)]).toOption.map
      (fun r => r.option.MaxAge) = some (-1) :=
  ⟨rfl, rfl, rfl⟩

/-- C8 as amended: a negative max age is accepted with only a warning:
WithMaxAge returns no error and stores the value, and construction with
that option succeeds, the age-based deletion rule being disabled. -/
theorem c8_negative_max_age_accepted (d : Int) (opt : ROption)
    (file : String) (_h : d < 0) :
    (WithMaxAge d opt).1 = none ∧
    (WithMaxAge d opt).2.MaxAge = d ∧
    (NewRotatingFile file [WithMaxAge d]).toOption.map
      (fun r => r.option.MaxAge) = some d :=
  ⟨rfl, rfl, rfl⟩

/-- Witness for C8 at the concrete negative duration -5. -/
theorem c8_negative_max_age_accepted_witness :
    (WithMaxAge (-5) defaultOption).1 = none ∧
    (WithMaxAge (-5) defaultOption).2.MaxAge = -5 ∧
    (NewRotatingFile "/d/app.log" [WithMaxAge (-5)]).toOption.map
      (fun r => r.option.MaxAge) = some (-5) :=
  c8_negative_max_age_accepted (-5) defaultOption "/d/app.log" (by decide)

end RotateSpec
